import Mathlib

/-!
Shallow embedding of the dual-source fuel-consumption reconciliation and
daily-price-attribution pipeline of `src/app.py` (functions
`calculate_enhanced_fuel_analysis`, `compute_primary_consumption`,
`compute_backup_consumption`, `process_fuel_purchases_and_pricing`,
`build_daily_price_series`, `filter_data_by_date_range`).

Conventions of the embedding:
* floating-point values are modelled as rationals (`ℚ`); all thresholds in
  the source (`0.1`, `1.0`, `30`, `50`, `22.50`) are exact decimal literals,
  so the order comparisons are exact;
* a timestamp is an integer number of ticks, `ticksPerDay` ticks per day;
  `dateOf` is the `.dt.date` projection (floor division);
* `pd.to_numeric(..., errors=coerce)` is modelled by storing the parse
  result as `Option ℚ` in the row (`none` = unparsable / NaN);
* a pandas series indexed by date is a `List (ℤ × ℚ)` of (date, value)
  pairs with distinct dates; `.get(date, default)` is `seriesGetD`;
* `.mean()` is `sum / length`; on an empty column pandas yields NaN, a
  case no claim below depends on (the rational quotient is then `0`);
* only the `nearest_prior` branch of `build_daily_price_series` is
  embedded: every claim under verification fixes that pricing mode.
-/

/-- One raw sensor row `(last_changed, entity_id, state)`; `state` holds the
result of numeric coercion (`none` when the raw string is unparsable). -/
structure SensorRow where
  t : ℤ
  entity_id : String
  state : Option ℚ
deriving DecidableEq

/-- Ticks per calendar day (the concrete granularity is irrelevant to the
pipeline; only the ordering of timestamps and their dates matter). -/
def ticksPerDay : ℤ := 1440

/-- The `.dt.date` projection of a timestamp. -/
def dateOf (t : ℤ) : ℤ := Int.fdiv t ticksPerDay

/-- Embedding of `filter_data_by_date_range` (`src/app.py:1223`): keep rows whose date
lies in the inclusive calendar range `[s, e]`. -/
def filter_data_by_date_range (rows : List SensorRow) (s e : ℤ) : List SensorRow :=
  rows.filter (fun r => decide (s ≤ dateOf r.t ∧ dateOf r.t ≤ e))

/-- A row after numeric coercion with `fillna(0)`: timestamp and value. -/
structure Reading where
  t : ℤ
  val : ℚ
deriving DecidableEq

/-- Embedding of `pd.to_numeric(col, errors=coerce).fillna(0)`: an unparsable state
becomes `0`, and the row is kept. -/
def coerceRows (rows : List SensorRow) : List Reading :=
  rows.map (fun r => ⟨r.t, r.state.getD 0⟩)

/-- Embedding of `sort_values(last_changed)`: stable sort by timestamp. -/
def sortReadings (rs : List Reading) : List Reading :=
  rs.insertionSort (fun a b => a.t ≤ b.t)

/-- Embedding of `groupby(date)[col].sum()`: one `(date, sum of values at that date)`
pair per distinct date key, keys in ascending order. -/
def groupSum (pairs : List (ℤ × ℚ)) : List (ℤ × ℚ) :=
  (((pairs.map Prod.fst).dedup).insertionSort (fun a b => a ≤ b)).map
    (fun d => (d, ((pairs.filter (fun p => decide (p.1 = d))).map Prod.snd).sum))

/-- Per-row consumption deltas of the primary extractor
(`src/app.py:986-988`): `consumption_diff = (-state.diff()).clip(lower=0)`.
The first row's diff is NaN, which contributes nothing to the group sums,
modelled as `0`. -/
def primaryDeltas (states : List ℚ) : List ℚ :=
  match states with
  | [] => []
  | _ :: _ => 0 :: List.zipWith (fun a b => max 0 (a - b)) states states.tail

/-- Median of one full rolling window, as pandas computes it: sort, then
middle element (odd length) or mean of the two middle elements (even). -/
def windowMedian (w : List ℚ) : ℚ :=
  let srt := w.insertionSort (fun a b => a ≤ b)
  if w.length % 2 = 1 then srt.getD (w.length / 2) 0
  else (srt.getD (w.length / 2 - 1) 0 + srt.getD (w.length / 2) 0) / 2

/-- Embedding of `rolling(window=20, center=True).median().fillna(state)`
(`src/app.py:1040`): the centered window for label `i` is rows
`[i-10, i+9]`; labels whose window is incomplete (fewer than 20 rows in
range) keep the unsmoothed value. -/
def smooth (xs : List ℚ) : List ℚ :=
  let n := xs.length
  (List.range n).map (fun i =>
    let en := min n (i + 1 + (20 - 1) / 2)
    let st := i + 1 + (20 - 1) / 2 - 20
    if en - st = 20 then windowMedian ((xs.drop st).take (en - st))
    else xs.getD i 0)

/-- Classification of one first difference of the smoothed level series
(`src/app.py:1044-1046`): it counts as consumption exactly when
`diff < -1` and `diff > -30`, contributing `-diff`; otherwise `0`. -/
def classifyDrop (d : ℚ) : ℚ :=
  if d < -1 ∧ -30 < d then -d else 0

/-- Per-row consumption deltas of the backup extractor: first difference
of the smoothed series, classified by `classifyDrop`; the first row keeps
the initialised `0.0`. -/
def backupDeltas (levels : List ℚ) : List ℚ :=
  match levels with
  | [] => []
  | _ :: _ =>
      0 :: List.zipWith (fun a b => classifyDrop (b - a))
        (smooth levels) (smooth levels).tail

/-- Shared tail of both branches of `compute_primary_consumption`: coerce,
sort chronologically, diff-and-clip, group by date, sum, and keep only the
days with at least `1.0` of summed consumption. -/
def dailyFromPrimary (rs : List Reading) : List (ℤ × ℚ) :=
  let sorted := sortReadings rs
  let deltas := primaryDeltas (sorted.map (fun r => r.val))
  (groupSum ((sorted.map (fun r => dateOf r.t)).zip deltas)).filter
    (fun p => decide ((1 : ℚ) ≤ p.2))

/-- Rows of the backup table in range that carry the tank-level entity. -/
def backupLevelRows (fuel_history_rows : List SensorRow) (s e : ℤ) : List SensorRow :=
  (filter_data_by_date_range fuel_history_rows s e).filter
    (fun r => decide (r.entity_id = "sensor.generator_fuel_level"))

/-- Embedding of `compute_primary_consumption` (`src/app.py:968`): try the detailed
table first; if it is empty or has no rows for the fuel-consumed entity,
fall back to the `gen` table with the same logic. -/
def compute_primary_consumption (gen_rows gen_detailed_rows : List SensorRow)
    (s e : ℤ) : List (ℤ × ℚ) :=
  let fuel_data := (filter_data_by_date_range gen_detailed_rows s e).filter
    (fun r => decide (r.entity_id = "sensor.generator_fuel_consumed"))
  if gen_detailed_rows.isEmpty = false ∧ fuel_data.isEmpty = false then
    dailyFromPrimary (coerceRows fuel_data)
  else if gen_rows.isEmpty then []
  else
    let fd := (filter_data_by_date_range gen_rows s e).filter
      (fun r => decide (r.entity_id = "sensor.generator_fuel_consumed"))
    if fd.isEmpty then []
    else dailyFromPrimary (coerceRows fd)

/-- Embedding of `compute_backup_consumption` (`src/app.py:1022`): smooth, classify
significant drops, sum per day, cap each day at `50`. There is no
day-level threshold filter in this extractor. -/
def compute_backup_consumption (fuel_history_rows : List SensorRow)
    (s e : ℤ) : List (ℤ × ℚ) :=
  if fuel_history_rows.isEmpty then []
  else
    let fuel_level_data := backupLevelRows fuel_history_rows s e
    if fuel_level_data.isEmpty then []
    else
      let sorted := sortReadings (coerceRows fuel_level_data)
      let deltas := backupDeltas (sorted.map (fun r => r.val))
      let daily := groupSum ((sorted.map (fun r => dateOf r.t)).zip deltas)
      daily.map (fun p => (p.1, min p.2 50))

/-- Embedding of `Series.get(date, default)`. -/
def seriesGetD (ser : List (ℤ × ℚ)) (dflt : ℚ) (d : ℤ) : ℚ :=
  match ser.find? (fun p => decide (p.1 = d)) with
  | some p => p.2
  | none => dflt

/-- Embedding of `Series.get(date, 0)`. -/
def seriesGet (ser : List (ℤ × ℚ)) (d : ℤ) : ℚ := seriesGetD ser 0 d

/-- The per-date combination rule of `calculate_enhanced_fuel_analysis`
(`src/app.py:914-925`): the backup value wins when above `0.1`, else the
primary value when above `0.1`, else the larger of the two. -/
def reconcileValue (primary_val backup_val : ℚ) : ℚ :=
  if backup_val > 0.1 then backup_val
  else if primary_val > 0.1 then primary_val
  else max primary_val backup_val

/-- Embedding of `sorted(set(primary.index + backup.index))`: the union of the two
series' dates, ascending. -/
def allDatesOf (p b : List (ℤ × ℚ)) : List ℤ :=
  ((p.map Prod.fst ++ b.map Prod.fst).dedup).insertionSort (fun a b => a ≤ b)

/-- One purchase-ledger row after column normalisation and numeric/date
coercion; `none` marks a failed coercion (NaN/NaT). -/
structure PurchaseRow where
  pdate : Option ℤ
  litres : Option ℚ
  cost : Option ℚ
  price_per_litre : Option ℚ
deriving DecidableEq

/-- The normalised purchase ledger: which canonical columns are present,
and the rows. -/
structure PurchaseFrame where
  hasDate : Bool
  hasLitres : Bool
  hasCost : Bool
  hasPrice : Bool
  rows : List PurchaseRow
deriving DecidableEq

/-- The price column after the optional derivation step
(`price_per_litre = cost / litres` when the column is absent but both
`litres` and `cost` are present). A division by `0` yields `±inf` in the
source, which the subsequent `replace([inf,-inf], nan)` turns into NaN and
the `> 0` filter drops; the rational quotient is then `0`, which the same
filter drops, so the outcomes agree. -/
def rawPrice (f : PurchaseFrame) (r : PurchaseRow) : Option ℚ :=
  if f.hasPrice then r.price_per_litre
  else if f.hasLitres && f.hasCost then
    match r.cost, r.litres with
    | some c, some l => some (c / l)
    | _, _ => none
  else none

/-- Ledger cleaning (`src/app.py:877-891`): drop rows with an unparsable
date, then keep a row exactly when its price is parsed and lies strictly
inside the band `(0, 50)`; retained rows become `(date, price)` pairs. -/
def cleanedLedger (f : PurchaseFrame) : List (ℤ × ℚ) :=
  (f.rows.filter (fun r => !r.pdate.isNone)).filterMap (fun r =>
    match r.pdate, rawPrice f r with
    | some d, some p => if 0 < p ∧ p < 50 then some (d, p) else none
    | _, _ => none)

/-- Embedding of `Series.mean()` as a rational (`sum / length`; pandas yields NaN on an
empty column, a case no verified claim reaches). -/
def meanQ (xs : List ℚ) : ℚ := xs.sum / (xs.length : ℚ)

/-- Embedding of `process_fuel_purchases_and_pricing` (`src/app.py:862`): an empty
ledger, a ledger without a date column, or one whose price column is
neither present nor derivable, yields `([], 22.50)`; otherwise the cleaned
`(date, price)` pairs and their mean price. -/
def process_fuel_purchases_and_pricing (f : PurchaseFrame) :
    List (ℤ × ℚ) × ℚ :=
  if f.rows.isEmpty then ([], 22.5)
  else if !f.hasDate then ([], 22.5)
  else if f.hasPrice || (f.hasLitres && f.hasCost) then
    let L := cleanedLedger f
    (L, meanQ (L.map Prod.snd))
  else ([], 22.5)

/-- Sort order of the cleaned ledger (`sort_values(date)`). -/
def purchaseLe : (ℤ × ℚ) → (ℤ × ℚ) → Prop := fun a b => a.1 ≤ b.1

instance : DecidableRel purchaseLe := fun a b => inferInstanceAs (Decidable (a.1 ≤ b.1))

instance : IsTotal (ℤ × ℚ) purchaseLe := ⟨fun a b => le_total a.1 b.1⟩

instance : IsTrans (ℤ × ℚ) purchaseLe := ⟨fun _ _ _ hab hbc => le_trans hab hbc⟩

/-- The `nearest_prior` price for one target date
(`src/app.py:1070-1078`): the last row of the date-sorted ledger with
date ≤ target, else the ledger's overall mean price. -/
def nearestPriorPrice (cleaned : List (ℤ × ℚ)) (d : ℤ) : ℚ :=
  let sorted := cleaned.insertionSort purchaseLe
  let prior := sorted.filter (fun p => decide (p.1 ≤ d))
  match prior.getLast? with
  | some p => p.2
  | none => meanQ (cleaned.map Prod.snd)

/-- Embedding of `build_daily_price_series` (`src/app.py:1058`) in its
`nearest_prior` branch (the pricing mode every claim fixes): an empty
cleaned ledger yields the empty mapping; otherwise one price per
requested date. -/
def build_daily_price_series (cleaned : List (ℤ × ℚ)) (all_dates : List ℤ) :
    List (ℤ × ℚ) :=
  if cleaned.isEmpty then []
  else all_dates.map (fun d => (d, nearestPriorPrice cleaned d))

/-- One emitted daily fuel record (`src/app.py:935-942`). -/
structure DailyFuelRecord where
  rdate : ℤ
  fuel_consumed_liters : ℚ
  fuel_price_per_liter : ℚ
  daily_cost_rands : ℚ
  primary_source : ℚ
  backup_source : ℚ
deriving DecidableEq

/-- Embedding of `calculate_enhanced_fuel_analysis` (`src/app.py:900`) under the
`nearest_prior` pricing mode, restricted to the daily fuel record list it
builds (the statistics dict and the filtered-purchases frame it also
returns are not needed by any claim). -/
def calculate_enhanced_fuel_analysis (gen_rows fuel_history_rows : List SensorRow)
    (fuel_purchases : PurchaseFrame) (gen_detailed_rows : List SensorRow)
    (s e : ℤ) : List DailyFuelRecord :=
  let pp := process_fuel_purchases_and_pricing fuel_purchases
  let daily_primary := compute_primary_consumption gen_rows gen_detailed_rows s e
  let daily_backup := compute_backup_consumption fuel_history_rows s e
  let all_dates := allDatesOf daily_primary daily_backup
  let priceSeries := build_daily_price_series pp.1 all_dates
  all_dates.filterMap (fun d =>
    let c := reconcileValue (seriesGet daily_primary d) (seriesGet daily_backup d)
    if c > 0 then
      let price := seriesGetD priceSeries pp.2 d
      some { rdate := d
             fuel_consumed_liters := c
             fuel_price_per_liter := price
             daily_cost_rands := c * price
             primary_source := seriesGet daily_primary d
             backup_source := seriesGet daily_backup d }
    else none)

/-- Replacement of a row's parse result by the explicit reading `0` it is
filled with: `fillna(0)` makes the pipeline treat the two alike. -/
def fillRow (r : SensorRow) : SensorRow :=
  ⟨r.t, r.entity_id, some (r.state.getD 0)⟩

/-- Entity id of the primary (fuel-consumed) sensor. -/
def fuelConsumedEntity : String := "sensor.generator_fuel_consumed"

/-- Entity id of the backup (tank-level) sensor. -/
def fuelLevelEntity : String := "sensor.generator_fuel_level"

/-- Concrete detailed-table input: tank level `10` then `5` on day `0`,
so the primary extractor reports `5` liters for day `0`. -/
def detSample : List SensorRow :=
  [⟨0, fuelConsumedEntity, some 10⟩, ⟨1, fuelConsumedEntity, some 5⟩]

/-- Concrete backup-table input: tank level `100` then `97` on day `0`,
so the backup extractor reports `3` liters for day `0`. -/
def histSample : List SensorRow :=
  [⟨0, fuelLevelEntity, some 100⟩, ⟨1, fuelLevelEntity, some 97⟩]

/-- Concrete backup-table input with a constant tank level on day `0`. -/
def histConst : List SensorRow :=
  [⟨0, fuelLevelEntity, some 100⟩, ⟨1, fuelLevelEntity, some 100⟩]

/-- A purchase ledger with all the canonical columns and no rows. -/
def emptyLedgerFrame : PurchaseFrame := ⟨true, true, true, true, []⟩

/-- Concrete detailed-table input holding one unparsable reading between
two parsable tank levels on day `0`. -/
def rowsUnparsable : List SensorRow :=
  [⟨0, fuelConsumedEntity, some 10⟩, ⟨1, fuelConsumedEntity, none⟩,
   ⟨2, fuelConsumedEntity, some 8⟩]

/-- The same input with the unparsable row removed. -/
def rowsParsableOnly : List SensorRow :=
  [⟨0, fuelConsumedEntity, some 10⟩, ⟨2, fuelConsumedEntity, some 8⟩]

/-- The purchase ledger of the spec's Scenario C: prices
`[15, 22, 1000, -5, 22.5]` on days `0..4`. -/
def scenarioCFrame : PurchaseFrame :=
  ⟨true, false, false, true,
   [⟨some 0, none, none, some 15⟩, ⟨some 1, none, none, some 22⟩,
    ⟨some 2, none, none, some 1000⟩, ⟨some 3, none, none, some (-5)⟩,
    ⟨some 4, none, none, some 22.5⟩]⟩

/-- Concrete emitted record of the pipeline on `detSample`/`histSample`
with an empty purchase ledger: day `0`, backup value `3` selected over
primary value `5`, default price `22.50`. -/
def recSample : DailyFuelRecord := ⟨0, 3, 22.5, 67.5, 5, 3⟩

lemma smooth_length (xs : List ℚ) : (smooth xs).length = xs.length := by
  simp [smooth]

lemma primaryDeltas_length (xs : List ℚ) : (primaryDeltas xs).length = xs.length := by
  cases xs with
  | nil => rfl
  | cons a t =>
      simp only [primaryDeltas, List.length_cons, List.length_zipWith, List.tail_cons]
      omega

lemma backupDeltas_length (xs : List ℚ) : (backupDeltas xs).length = xs.length := by
  cases xs with
  | nil => rfl
  | cons a t =>
      simp only [backupDeltas, List.length_cons, List.length_zipWith,
        List.length_tail, smooth_length]
      omega

lemma classifyDrop_nonneg (d : ℚ) : 0 ≤ classifyDrop d := by
  unfold classifyDrop
  split
  · next h => linarith [h.1]
  · exact le_refl 0

lemma mem_primaryDeltas_nonneg (xs : List ℚ) : ∀ x ∈ primaryDeltas xs, 0 ≤ x := by
  cases xs with
  | nil => intro x hx; simp [primaryDeltas] at hx
  | cons a t =>
      intro x hx
      simp only [primaryDeltas] at hx
      rcases List.mem_cons.mp hx with h0 | hzip
      · exact h0.ge
      · obtain ⟨n, hn, hget⟩ := List.mem_iff_getElem.mp hzip
        rw [List.getElem_zipWith] at hget
        exact hget ▸ le_max_left 0 _

lemma mem_backupDeltas_nonneg (xs : List ℚ) : ∀ x ∈ backupDeltas xs, 0 ≤ x := by
  cases xs with
  | nil => intro x hx; simp [backupDeltas] at hx
  | cons a t =>
      intro x hx
      simp only [backupDeltas] at hx
      rcases List.mem_cons.mp hx with h0 | hzip
      · exact h0.ge
      · obtain ⟨n, hn, hget⟩ := List.mem_iff_getElem.mp hzip
        rw [List.getElem_zipWith] at hget
        exact hget ▸ classifyDrop_nonneg _

lemma groupSum_snd_nonneg {pairs : List (ℤ × ℚ)} (h : ∀ q ∈ pairs, 0 ≤ q.2) :
    ∀ p ∈ groupSum pairs, 0 ≤ p.2 := by
  intro p hp
  simp only [groupSum, List.mem_map] at hp
  obtain ⟨d, _, rfl⟩ := hp
  refine List.sum_nonneg ?_
  intro x hx
  simp only [List.mem_map] at hx
  obtain ⟨q, hq, rfl⟩ := hx
  exact h q (List.mem_of_mem_filter hq)

lemma one_le_of_mem_dailyFromPrimary {rs : List Reading} {p : ℤ × ℚ}
    (hp : p ∈ dailyFromPrimary rs) : 1 ≤ p.2 := by
  simp only [dailyFromPrimary, List.mem_filter, decide_eq_true_eq] at hp
  exact hp.2

lemma mem_compute_primary_cases {gen det : List SensorRow} {s e : ℤ} {p : ℤ × ℚ}
    (hp : p ∈ compute_primary_consumption gen det s e) :
    ∃ rs : List Reading, p ∈ dailyFromPrimary rs := by
  simp only [compute_primary_consumption] at hp
  split at hp
  · exact ⟨_, hp⟩
  · split at hp
    · simp at hp
    · split at hp
      · simp at hp
      · exact ⟨_, hp⟩

/-- C9: every value of either extractor's daily-consumption series is
non-negative: the primary extractor clips negative deltas to zero and the
backup extractor never classifies a level increase as consumption. -/
theorem daily_consumption_series_nonneg (gen det hist : List SensorRow) (s e : ℤ) :
    (∀ p ∈ compute_primary_consumption gen det s e, 0 ≤ p.2) ∧
    (∀ q ∈ compute_backup_consumption hist s e, 0 ≤ q.2) := by
  constructor
  · intro p hp
    obtain ⟨rs, hrs⟩ := mem_compute_primary_cases hp
    exact le_trans zero_le_one (one_le_of_mem_dailyFromPrimary hrs)
  · intro q hq
    simp only [compute_backup_consumption] at hq
    split at hq
    · simp at hq
    · split at hq
      · simp at hq
      · simp only [List.mem_map] at hq
        obtain ⟨pr, hpr, rfl⟩ := hq
        have h0 : 0 ≤ pr.2 := by
          refine groupSum_snd_nonneg ?_ pr hpr
          intro q2 hq2
          exact mem_backupDeltas_nonneg _ _ (List.of_mem_zip hq2).2
        exact le_min h0 (by norm_num)

/-- Witness for C9: the theorem applied to a concrete run of both
extractors (primary reports `5` liters and backup `3` liters on day `0`). -/
theorem daily_consumption_series_nonneg_witness :
    ((0 : ℤ), (5 : ℚ)) ∈ compute_primary_consumption [] detSample 0 0 ∧
    ((0 : ℤ), (3 : ℚ)) ∈ compute_backup_consumption histSample 0 0 ∧
    (0 : ℚ) ≤ 5 ∧ (0 : ℚ) ≤ 3 := by
  have hp : compute_primary_consumption [] detSample 0 0 = [(0, 5)] := by
    norm_num [compute_primary_consumption, detSample, fuelConsumedEntity,
      filter_data_by_date_range, dateOf, ticksPerDay, coerceRows, dailyFromPrimary,
      sortReadings, primaryDeltas, groupSum, List.insertionSort, List.orderedInsert,
      List.filter, List.dedup, List.zip, List.zipWith, Int.fdiv]
  have hb : compute_backup_consumption histSample 0 0 = [(0, 3)] := by
    norm_num [compute_backup_consumption, backupLevelRows, histSample, fuelLevelEntity,
      filter_data_by_date_range, dateOf, ticksPerDay, coerceRows, sortReadings,
      backupDeltas, smooth, windowMedian, classifyDrop, groupSum,
      List.insertionSort, List.orderedInsert, List.filter, List.dedup,
      List.zip, List.zipWith, List.range, List.range.loop, Int.fdiv]
  have hmp : ((0 : ℤ), (5 : ℚ)) ∈ compute_primary_consumption [] detSample 0 0 := by
    rw [hp]; exact List.mem_singleton.mpr rfl
  have hmb : ((0 : ℤ), (3 : ℚ)) ∈ compute_backup_consumption histSample 0 0 := by
    rw [hb]; exact List.mem_singleton.mpr rfl
  exact ⟨hmp, hmb,
    (daily_consumption_series_nonneg [] detSample histSample 0 0).1 _ hmp,
    (daily_consumption_series_nonneg [] detSample histSample 0 0).2 _ hmb⟩

/-- C4: in the backup extractor, a first difference of the smoothed level
series is classified as consumption (contributing its negation) exactly
when it lies strictly between `-30` and `-1`; any other difference
(including a drop of exactly `1` and any drop of `30` or more)
contributes `0`, i.e. is excluded entirely rather than clipped. -/
theorem backup_drop_classification (xs : List ℚ) (i : ℕ) (hi : i + 1 < xs.length) :
    ((-30 < (smooth xs).getD (i + 1) 0 - (smooth xs).getD i 0 ∧
        (smooth xs).getD (i + 1) 0 - (smooth xs).getD i 0 < -1) →
      (backupDeltas xs).getD (i + 1) 0
        = -((smooth xs).getD (i + 1) 0 - (smooth xs).getD i 0)) ∧
    (¬(-30 < (smooth xs).getD (i + 1) 0 - (smooth xs).getD i 0 ∧
        (smooth xs).getD (i + 1) 0 - (smooth xs).getD i 0 < -1) →
      (backupDeltas xs).getD (i + 1) 0 = 0) := by
  cases xs with
  | nil => simp at hi
  | cons a t =>
      have hi1 : i + 1 < (smooth (a :: t)).length := by
        rw [smooth_length]; exact hi
      have hi0 : i < (smooth (a :: t)).length := Nat.lt_of_succ_lt hi1
      have htail : i < (smooth (a :: t)).tail.length := by
        rw [List.length_tail, smooth_length]
        simp only [List.length_cons] at hi ⊢
        omega
      have hzw : i < (List.zipWith (fun x y => classifyDrop (y - x))
          (smooth (a :: t)) (smooth (a :: t)).tail).length := by
        rw [List.length_zipWith]
        exact lt_min hi0 htail
      have hd : (backupDeltas (a :: t)).getD (i + 1) 0
          = classifyDrop ((smooth (a :: t)).getD (i + 1) 0
              - (smooth (a :: t)).getD i 0) := by
        simp only [backupDeltas]
        rw [List.getD_cons_succ, List.getD_eq_getElem _ _ hzw, List.getElem_zipWith,
          List.getElem_tail, List.getD_eq_getElem _ _ hi1, List.getD_eq_getElem _ _ hi0]
      rw [hd]
      unfold classifyDrop
      constructor
      · intro hcond
        rw [if_pos ⟨hcond.2, hcond.1⟩]
      · intro hcond
        rw [if_neg (fun hc => hcond ⟨hc.2, hc.1⟩)]

/-- Witness for C4: the spec's Scenario B levels `[100, 98, 97, 65, 64]`
(short enough that smoothing is the identity); the first difference `-2`
qualifies, so the second consumption delta is `2`. -/
theorem backup_drop_classification_witness :
    (backupDeltas [100, 98, 97, 65, 64]).getD 1 0 = 2 := by
  have hs : smooth [100, 98, 97, 65, 64] = [100, 98, 97, 65, 64] := by
    norm_num [smooth, windowMedian, List.range, List.range.loop,
      List.insertionSort, List.orderedInsert]
  have h := (backup_drop_classification [100, 98, 97, 65, 64] 0 (by norm_num)).1
  rw [hs] at h
  have h2 := h (by norm_num)
  rw [h2]
  norm_num

/-- Counterexample to C3: a backup input with a constant tank level on
day `0` produces an output series that contains day `0` with a
consumption of `0` — the backup extractor has no day-level filter, so a
zero-consumption day does appear in its output series. -/
theorem backup_zero_day_counterexample :
    compute_backup_consumption histConst 0 0 = [(0, 0)] ∧
    ((0 : ℤ), (0 : ℚ)) ∈ compute_backup_consumption histConst 0 0 := by
  have h : compute_backup_consumption histConst 0 0 = [(0, 0)] := by
    norm_num [compute_backup_consumption, backupLevelRows, histConst, fuelLevelEntity,
      filter_data_by_date_range, dateOf, ticksPerDay, coerceRows, sortReadings,
      backupDeltas, smooth, windowMedian, classifyDrop, groupSum,
      List.insertionSort, List.orderedInsert, List.filter, List.dedup,
      List.zip, List.zipWith, List.range, List.range.loop, Int.fdiv]
  exact ⟨h, by rw [h]; exact List.mem_singleton.mpr rfl⟩

/-- C3 as amended: the primary extractor's output contains only days whose
summed consumption is at least `1.0`, while the backup extractor applies
only a per-difference filter: its output contains exactly the days present
in its range- and entity-filtered input, zero-consumption days included. -/
theorem extractor_day_filters (gen det hist : List SensorRow) (s e d : ℤ) :
    (∀ p ∈ compute_primary_consumption gen det s e, 1 ≤ p.2) ∧
    (d ∈ (compute_backup_consumption hist s e).map Prod.fst ↔
      d ∈ (backupLevelRows hist s e).map (fun r => dateOf r.t)) := by
  constructor
  · intro p hp
    obtain ⟨rs, hrs⟩ := mem_compute_primary_cases hp
    exact one_le_of_mem_dailyFromPrimary hrs
  · simp only [compute_backup_consumption]
    split
    · next hemp =>
      have h0 : hist = [] := List.isEmpty_iff.mp hemp
      subst h0
      simp [backupLevelRows, filter_data_by_date_range]
    · split
      · next hemp2 =>
        rw [List.isEmpty_iff] at hemp2
        simp [hemp2]
      · rw [List.map_map]
        have hfst : (Prod.fst ∘ fun p : ℤ × ℚ => (p.1, min p.2 50)) = Prod.fst := rfl
        rw [hfst]
        have hkeys : ∀ pairs : List (ℤ × ℚ), (groupSum pairs).map Prod.fst
            = ((pairs.map Prod.fst).dedup).insertionSort (fun a b => a ≤ b) := by
          intro pairs
          simp only [groupSum, List.map_map]
          have hcomp : (Prod.fst ∘ fun d : ℤ =>
              (d, ((pairs.filter (fun p => decide (p.1 = d))).map Prod.snd).sum)) = id := rfl
          rw [hcomp, List.map_id]
        rw [hkeys]
        have hlen : ((sortReadings (coerceRows (backupLevelRows hist s e))).map
              (fun r => dateOf r.t)).length
            ≤ (backupDeltas ((sortReadings (coerceRows (backupLevelRows hist s e))).map
              (fun r => r.val))).length := by
          rw [backupDeltas_length, List.length_map, List.length_map]
        rw [List.map_fst_zip _ _ hlen]
        have hperm1 := List.perm_insertionSort (fun a b : ℤ => a ≤ b)
          (((sortReadings (coerceRows (backupLevelRows hist s e))).map
            (fun r => dateOf r.t)).dedup)
        rw [hperm1.mem_iff, List.mem_dedup]
        have hperm2 := List.perm_insertionSort (fun a b : Reading => a.t ≤ b.t)
          (coerceRows (backupLevelRows hist s e))
        constructor
        · intro hmem
          obtain ⟨rd, hrd, rfl⟩ := List.mem_map.mp hmem
          have : rd ∈ coerceRows (backupLevelRows hist s e) := hperm2.mem_iff.mp hrd
          obtain ⟨r, hr, rfl⟩ := List.mem_map.mp this
          exact List.mem_map.mpr ⟨r, hr, rfl⟩
        · intro hmem
          obtain ⟨r, hr, rfl⟩ := List.mem_map.mp hmem
          refine List.mem_map.mpr ?_
          refine ⟨⟨r.t, r.state.getD 0⟩, ?_, rfl⟩
          exact hperm2.mem_iff.mpr (List.mem_map.mpr ⟨r, hr, rfl⟩)

/-- Witness for C3 as amended: applied to concrete runs — the primary day
`(0, 5)` passes the `1.0` threshold, and the constant-level backup input
has day `0` in its output (with zero consumption). -/
theorem extractor_day_filters_witness :
    ((0 : ℤ), (5 : ℚ)) ∈ compute_primary_consumption [] detSample 0 0 ∧
    (1 : ℚ) ≤ 5 ∧
    ((0 : ℤ) ∈ (compute_backup_consumption histConst 0 0).map Prod.fst ↔
      (0 : ℤ) ∈ (backupLevelRows histConst 0 0).map (fun r => dateOf r.t)) := by
  have hp : compute_primary_consumption [] detSample 0 0 = [(0, 5)] := by
    norm_num [compute_primary_consumption, detSample, fuelConsumedEntity,
      filter_data_by_date_range, dateOf, ticksPerDay, coerceRows, dailyFromPrimary,
      sortReadings, primaryDeltas, groupSum, List.insertionSort, List.orderedInsert,
      List.filter, List.dedup, List.zip, List.zipWith, Int.fdiv]
  have hmp : ((0 : ℤ), (5 : ℚ)) ∈ compute_primary_consumption [] detSample 0 0 := by
    rw [hp]; exact List.mem_singleton.mpr rfl
  have h5 := (extractor_day_filters [] detSample histConst 0 0 0).1 _ hmp
  exact ⟨hmp, h5, (extractor_day_filters [] detSample histConst 0 0 0).2⟩


lemma pipelineSample_eval :
    calculate_enhanced_fuel_analysis [] histSample emptyLedgerFrame detSample 0 0
      = [recSample] := by
  norm_num [calculate_enhanced_fuel_analysis, compute_primary_consumption,
    compute_backup_consumption, backupLevelRows, process_fuel_purchases_and_pricing,
    detSample, histSample, emptyLedgerFrame, recSample, fuelConsumedEntity,
    fuelLevelEntity, filter_data_by_date_range, dateOf, ticksPerDay, coerceRows,
    dailyFromPrimary, sortReadings, primaryDeltas, backupDeltas, smooth,
    windowMedian, classifyDrop, groupSum, allDatesOf, reconcileValue, seriesGet,
    seriesGetD, build_daily_price_series, nearestPriorPrice, purchaseLe, meanQ,
    cleanedLedger, rawPrice, List.insertionSort, List.orderedInsert, List.filter,
    List.dedup, List.zip, List.zipWith, List.range, List.range.loop, List.find?,
    List.filterMap, Int.fdiv]

/-- Counterexample to C1: on day `0` the primary series holds `5`
(`> 0.1`) and the backup series holds `3`, yet the reconciled consumption
is `3`, not the primary value — the source prioritises the backup series
(`src/app.py:914-925`), not the primary one. -/
theorem reconciliation_primary_priority_counterexample :
    seriesGet (compute_primary_consumption [] detSample 0 0) 0 = 5 ∧
    (0.1 : ℚ) < 5 ∧
    (calculate_enhanced_fuel_analysis [] histSample emptyLedgerFrame detSample 0 0).map
      (fun r => (r.rdate, r.fuel_consumed_liters)) = [(0, 3)] ∧
    (3 : ℚ) ≠ 5 := by
  have hp : compute_primary_consumption [] detSample 0 0 = [(0, 5)] := by
    norm_num [compute_primary_consumption, detSample, fuelConsumedEntity,
      filter_data_by_date_range, dateOf, ticksPerDay, coerceRows, dailyFromPrimary,
      sortReadings, primaryDeltas, groupSum, List.insertionSort, List.orderedInsert,
      List.filter, List.dedup, List.zip, List.zipWith, Int.fdiv]
  refine ⟨by rw [hp]; norm_num [seriesGet, seriesGetD, List.find?], by norm_num, ?_, by norm_num⟩
  norm_num [calculate_enhanced_fuel_analysis, compute_primary_consumption,
    compute_backup_consumption, backupLevelRows, process_fuel_purchases_and_pricing,
    detSample, histSample, emptyLedgerFrame, fuelConsumedEntity, fuelLevelEntity,
    filter_data_by_date_range, dateOf, ticksPerDay, coerceRows, dailyFromPrimary,
    sortReadings, primaryDeltas, backupDeltas, smooth, windowMedian, classifyDrop,
    groupSum, allDatesOf, reconcileValue, seriesGet, seriesGetD,
    build_daily_price_series, nearestPriorPrice, purchaseLe, meanQ, cleanedLedger,
    rawPrice, List.insertionSort, List.orderedInsert, List.filter, List.dedup,
    List.zip, List.zipWith, List.range, List.range.loop, List.find?,
    List.filterMap, Int.fdiv]

/-- C1 as amended: for every emitted record, the stored source fields are
the two extractors' values at that date, and the reconciled consumption
follows the backup-first policy — the backup value whenever it exceeds
`0.1` (regardless of the primary value), else the primary value whenever
it exceeds `0.1`, else the larger of the two. -/
theorem reconciliation_backup_priority (gen hist : List SensorRow)
    (f : PurchaseFrame) (det : List SensorRow) (s e : ℤ) (r : DailyFuelRecord)
    (hr : r ∈ calculate_enhanced_fuel_analysis gen hist f det s e) :
    r.primary_source = seriesGet (compute_primary_consumption gen det s e) r.rdate ∧
    r.backup_source = seriesGet (compute_backup_consumption hist s e) r.rdate ∧
    r.fuel_consumed_liters = reconcileValue r.primary_source r.backup_source ∧
    (0.1 < r.backup_source → r.fuel_consumed_liters = r.backup_source) ∧
    (r.backup_source ≤ 0.1 → 0.1 < r.primary_source →
      r.fuel_consumed_liters = r.primary_source) ∧
    (r.backup_source ≤ 0.1 → r.primary_source ≤ 0.1 →
      r.fuel_consumed_liters = max r.primary_source r.backup_source) := by
  simp only [calculate_enhanced_fuel_analysis, List.mem_filterMap] at hr
  obtain ⟨d, hd, hsome⟩ := hr
  split at hsome
  · rw [Option.some.injEq] at hsome
    subst hsome
    refine ⟨rfl, rfl, rfl, ?_, ?_, ?_⟩
    · intro hb
      simp only [reconcileValue]
      rw [if_pos hb]
    · intro hb hp
      simp only [reconcileValue]
      rw [if_neg (not_lt.mpr hb), if_pos hp]
    · intro hb hp
      simp only [reconcileValue]
      rw [if_neg (not_lt.mpr hb), if_neg (not_lt.mpr hp)]
  · simp at hsome

/-- Witness for C1 as amended: the theorem applied to the concrete record
emitted on `detSample`/`histSample`, whose backup value `3` exceeds `0.1`
and is therefore the reconciled consumption. -/
theorem reconciliation_backup_priority_witness :
    recSample ∈ calculate_enhanced_fuel_analysis [] histSample emptyLedgerFrame
      detSample 0 0 ∧
    (0.1 : ℚ) < recSample.backup_source ∧
    recSample.fuel_consumed_liters = recSample.backup_source := by
  have hlist : calculate_enhanced_fuel_analysis [] histSample emptyLedgerFrame
      detSample 0 0 = [recSample] := pipelineSample_eval
  have hmem : recSample ∈ calculate_enhanced_fuel_analysis [] histSample
      emptyLedgerFrame detSample 0 0 := by
    rw [hlist]; exact List.mem_singleton.mpr rfl
  have hb : (0.1 : ℚ) < recSample.backup_source := by norm_num [recSample]
  exact ⟨hmem, hb,
    (reconciliation_backup_priority [] histSample emptyLedgerFrame detSample
      0 0 recSample hmem).2.2.2.1 hb⟩

lemma filterRange_map_fillRow (l : List SensorRow) (s e : ℤ) :
    filter_data_by_date_range (l.map fillRow) s e
      = (filter_data_by_date_range l s e).map fillRow := by
  simp only [filter_data_by_date_range]
  rw [List.filter_map]
  rfl

lemma entityFilter_map_fillRow (l : List SensorRow) (name : String) :
    (l.map fillRow).filter (fun r => decide (r.entity_id = name))
      = (l.filter (fun r => decide (r.entity_id = name))).map fillRow := by
  rw [List.filter_map]
  rfl

lemma isEmpty_map_fillRow (l : List SensorRow) :
    (l.map fillRow).isEmpty = l.isEmpty := by
  cases l <;> rfl

lemma coerceRows_map_fillRow (l : List SensorRow) :
    coerceRows (l.map fillRow) = coerceRows l := by
  simp only [coerceRows, List.map_map]
  rfl

lemma backupLevelRows_map_fillRow (hist : List SensorRow) (s e : ℤ) :
    backupLevelRows (hist.map fillRow) s e
      = (backupLevelRows hist s e).map fillRow := by
  simp only [backupLevelRows, filterRange_map_fillRow, entityFilter_map_fillRow]

/-- Counterexample to C2: an unparsable reading between tank levels `10`
and `8` on day `0` is kept as the value `0`, so the primary extractor
reports `10` liters for the day; with the row removed it reports `2`.
The unparsable row therefore does contribute to the day's total: it is
filled with `0`, not dropped. -/
theorem unparsable_reading_drop_counterexample :
    compute_primary_consumption [] rowsUnparsable 0 0 = [(0, 10)] ∧
    compute_primary_consumption [] rowsParsableOnly 0 0 = [(0, 2)] ∧
    ([((0 : ℤ), (10 : ℚ))] : List (ℤ × ℚ)) ≠ [((0 : ℤ), (2 : ℚ))] := by
  refine ⟨?_, ?_, by norm_num⟩
  · norm_num [compute_primary_consumption, rowsUnparsable, fuelConsumedEntity,
      filter_data_by_date_range, dateOf, ticksPerDay, coerceRows, dailyFromPrimary,
      sortReadings, primaryDeltas, groupSum, List.insertionSort, List.orderedInsert,
      List.filter, List.dedup, List.zip, List.zipWith, Int.fdiv]
  · norm_num [compute_primary_consumption, rowsParsableOnly, fuelConsumedEntity,
      filter_data_by_date_range, dateOf, ticksPerDay, coerceRows, dailyFromPrimary,
      sortReadings, primaryDeltas, groupSum, List.insertionSort, List.orderedInsert,
      List.filter, List.dedup, List.zip, List.zipWith, Int.fdiv]

/-- C2 as amended: a row whose reading fails numeric coercion is coerced
to null and then filled with `0` — the row is retained, and both
extractors treat it exactly as an explicit `0` reading (so it can change
a day's consumption total, rather than contributing nothing). -/
theorem unparsable_reading_filled_zero (gen det hist : List SensorRow) (s e : ℤ) :
    compute_primary_consumption (gen.map fillRow) (det.map fillRow) s e
      = compute_primary_consumption gen det s e ∧
    compute_backup_consumption (hist.map fillRow) s e
      = compute_backup_consumption hist s e := by
  constructor
  · simp only [compute_primary_consumption, filterRange_map_fillRow,
      entityFilter_map_fillRow, isEmpty_map_fillRow, coerceRows_map_fillRow]
  · simp only [compute_backup_consumption, backupLevelRows_map_fillRow,
      isEmpty_map_fillRow, coerceRows_map_fillRow]

/-- C7: the emitted daily fuel records carry exactly the dates, among the
union of the two extractors' dates, whose reconciled consumption is
strictly positive; a date with zero reconciled consumption is absent
entirely. -/
theorem active_days_exactly_positive (gen hist : List SensorRow) (f : PurchaseFrame)
    (det : List SensorRow) (s e d : ℤ) :
    (d ∈ (calculate_enhanced_fuel_analysis gen hist f det s e).map
        (fun r => r.rdate)) ↔
      (d ∈ allDatesOf (compute_primary_consumption gen det s e)
          (compute_backup_consumption hist s e) ∧
        0 < reconcileValue (seriesGet (compute_primary_consumption gen det s e) d)
          (seriesGet (compute_backup_consumption hist s e) d)) := by
  simp only [calculate_enhanced_fuel_analysis, List.mem_map, List.mem_filterMap]
  constructor
  · rintro ⟨r, ⟨d2, hd2, hsome⟩, hrd⟩
    split at hsome
    · next hc =>
      rw [Option.some.injEq] at hsome
      subst hsome
      simp only [] at hrd
      subst hrd
      exact ⟨hd2, hc⟩
    · simp at hsome
  · rintro ⟨hd, hpos⟩
    exact ⟨_, ⟨d, hd, by rw [if_pos hpos]⟩, rfl⟩

/-- C8: for every emitted daily fuel record, the daily cost equals the
consumed liters times the price per liter, exactly. -/
theorem daily_cost_product (gen hist : List SensorRow) (f : PurchaseFrame)
    (det : List SensorRow) (s e : ℤ) (r : DailyFuelRecord)
    (hr : r ∈ calculate_enhanced_fuel_analysis gen hist f det s e) :
    r.daily_cost_rands = r.fuel_consumed_liters * r.fuel_price_per_liter := by
  simp only [calculate_enhanced_fuel_analysis, List.mem_filterMap] at hr
  obtain ⟨d, hd, hsome⟩ := hr
  split at hsome
  · rw [Option.some.injEq] at hsome
    subst hsome
    rfl
  · simp at hsome

/-- Witness for C8: the theorem applied to the concrete emitted record
(`67.5 = 3 * 22.5`). -/
theorem daily_cost_product_witness :
    recSample ∈ calculate_enhanced_fuel_analysis [] histSample emptyLedgerFrame
      detSample 0 0 ∧
    recSample.daily_cost_rands
      = recSample.fuel_consumed_liters * recSample.fuel_price_per_liter := by
  have hlist : calculate_enhanced_fuel_analysis [] histSample emptyLedgerFrame
      detSample 0 0 = [recSample] := pipelineSample_eval
  have hmem : recSample ∈ calculate_enhanced_fuel_analysis [] histSample
      emptyLedgerFrame detSample 0 0 := by
    rw [hlist]; exact List.mem_singleton.mpr rfl
  exact ⟨hmem,
    daily_cost_product [] histSample emptyLedgerFrame detSample 0 0 recSample hmem⟩

lemma mem_cleanedLedger_band {f : PurchaseFrame} {x : ℤ × ℚ}
    (hx : x ∈ cleanedLedger f) : 0 < x.2 ∧ x.2 < 50 := by
  simp only [cleanedLedger, List.mem_filterMap] at hx
  obtain ⟨r, hr, hsome⟩ := hx
  split at hsome
  · split at hsome
    · next hband =>
      rw [Option.some.injEq] at hsome
      subst hsome
      exact hband
    · simp at hsome
  · simp at hsome

/-- C5: after cleaning, every retained purchase record's price per liter
lies strictly inside `(0, 50)`; out-of-band records are discarded, and on
the spec's Scenario C ledger `[15, 22, 1000, -5, 22.5]` exactly
`[15, 22, 22.5]` are retained. -/
theorem purchase_price_band :
    (∀ (f : PurchaseFrame) (x : ℤ × ℚ),
      x ∈ (process_fuel_purchases_and_pricing f).1 → 0 < x.2 ∧ x.2 < 50) ∧
    ((process_fuel_purchases_and_pricing scenarioCFrame).1.map Prod.snd
      = [15, 22, 22.5]) := by
  constructor
  · intro f x hx
    simp only [process_fuel_purchases_and_pricing] at hx
    split at hx
    · simp at hx
    · split at hx
      · simp at hx
      · split at hx
        · exact mem_cleanedLedger_band hx
        · simp at hx
  · norm_num [process_fuel_purchases_and_pricing, scenarioCFrame, cleanedLedger,
      rawPrice, meanQ, List.filter, List.filterMap]

/-- Witness for C5: the theorem applied to the first retained Scenario C
record, whose price `15` lies inside the band. -/
theorem purchase_price_band_witness :
    ((0 : ℤ), (15 : ℚ)) ∈ (process_fuel_purchases_and_pricing scenarioCFrame).1 ∧
    (0 : ℚ) < 15 ∧ (15 : ℚ) < 50 := by
  have h : (process_fuel_purchases_and_pricing scenarioCFrame).1
      = [(0, 15), (1, 22), (4, 22.5)] := by
    norm_num [process_fuel_purchases_and_pricing, scenarioCFrame, cleanedLedger,
      rawPrice, meanQ, List.filter, List.filterMap]
  have hm : ((0 : ℤ), (15 : ℚ)) ∈ (process_fuel_purchases_and_pricing scenarioCFrame).1 := by
    rw [h]; simp
  exact ⟨hm, (purchase_price_band.1 scenarioCFrame _ hm).1,
    (purchase_price_band.1 scenarioCFrame _ hm).2⟩

lemma pairwise_le_getLast {α : Type} {R : α → α → Prop} :
    ∀ {l : List α}, l.Pairwise R → ∀ {y : α}, l.getLast? = some y →
      ∀ {x : α}, x ∈ l → x = y ∨ R x y := by
  intro l
  induction l with
  | nil => intro _ y hy; simp at hy
  | cons a tl ih =>
      intro hp y hy x hx
      cases tl with
      | nil =>
          rw [List.getLast?_singleton, Option.some.injEq] at hy
          rcases List.mem_singleton.mp hx with rfl
          exact Or.inl hy
      | cons b tl2 =>
          rw [List.getLast?_cons_cons] at hy
          rcases List.mem_cons.mp hx with rfl | hx2
          · exact Or.inr ((List.pairwise_cons.mp hp).1 y (List.mem_of_mem_getLast? hy))
          · exact ih (List.pairwise_cons.mp hp).2 hy hx2

/-- C6: under the nearest-prior policy, the attributed price for a target
date is the price of a latest-dated record on or before that date; a date
preceding every record receives the ledger's overall mean price; and with
an empty ledger the pipeline's price lookup falls back to the hardcoded
default `22.50`. -/
theorem nearest_prior_policy (L : List (ℤ × ℚ)) (f : PurchaseFrame)
    (dates : List ℤ) (d : ℤ) :
    ((∃ r ∈ L, r.1 ≤ d) →
      ∃ rm ∈ L, rm.1 ≤ d ∧ (∀ q ∈ L, q.1 ≤ d → q.1 ≤ rm.1) ∧
        nearestPriorPrice L d = rm.2) ∧
    ((∀ r ∈ L, d < r.1) → nearestPriorPrice L d = meanQ (L.map Prod.snd)) ∧
    (f.rows.isEmpty = true →
      seriesGetD (build_daily_price_series
          (process_fuel_purchases_and_pricing f).1 dates)
        (process_fuel_purchases_and_pricing f).2 d = 22.5) := by
  refine ⟨?_, ?_, ?_⟩
  · rintro ⟨r, hrL, hrd⟩
    have hsort : (L.insertionSort purchaseLe).Pairwise purchaseLe :=
      List.sorted_insertionSort purchaseLe L
    have hperm := List.perm_insertionSort purchaseLe L
    have hrp : r ∈ (L.insertionSort purchaseLe).filter (fun p => decide (p.1 ≤ d)) :=
      List.mem_filter.mpr ⟨hperm.mem_iff.mpr hrL, by simpa using hrd⟩
    obtain ⟨rm, hrm⟩ := Option.isSome_iff_exists.mp
      (List.getLast?_isSome.mpr (List.ne_nil_of_mem hrp))
    have hpair : ((L.insertionSort purchaseLe).filter
        (fun p => decide (p.1 ≤ d))).Pairwise purchaseLe :=
      List.Pairwise.filter _ hsort
    have hrmp := List.mem_of_mem_getLast? hrm
    have hrmL : rm ∈ L := hperm.mem_iff.mp (List.mem_of_mem_filter hrmp)
    have hrmd : rm.1 ≤ d := by simpa using (List.mem_filter.mp hrmp).2
    refine ⟨rm, hrmL, hrmd, ?_, ?_⟩
    · intro q hqL hqd
      have hqp : q ∈ (L.insertionSort purchaseLe).filter (fun p => decide (p.1 ≤ d)) :=
        List.mem_filter.mpr ⟨hperm.mem_iff.mpr hqL, by simpa using hqd⟩
      rcases pairwise_le_getLast hpair hrm hqp with h1 | h2
      · exact h1 ▸ le_refl _
      · exact h2
    · simp only [nearestPriorPrice]
      rw [hrm]
  · intro hall
    have hemp : (L.insertionSort purchaseLe).filter (fun p => decide (p.1 ≤ d)) = [] := by
      rw [List.filter_eq_nil_iff]
      intro a ha
      simp only [decide_eq_true_eq]
      exact not_le.mpr (hall a ((List.perm_insertionSort purchaseLe L).mem_iff.mp ha))
    simp only [nearestPriorPrice]
    rw [hemp]
    rfl
  · intro hempty
    have hpp : process_fuel_purchases_and_pricing f = ([], 22.5) := by
      simp [process_fuel_purchases_and_pricing, hempty]
    rw [hpp]
    simp [build_daily_price_series, seriesGetD]

/-- Witness for C6: a one-record ledger dated on the target date yields
that record's price; a ledger dated after the target date yields the
ledger mean; the empty ledger yields the default `22.50`. -/
theorem nearest_prior_policy_witness :
    nearestPriorPrice [((0 : ℤ), (10 : ℚ))] 0 = 10 ∧
    nearestPriorPrice [((5 : ℤ), (10 : ℚ))] 0 = meanQ [10] ∧
    seriesGetD (build_daily_price_series
        (process_fuel_purchases_and_pricing emptyLedgerFrame).1 [0])
      (process_fuel_purchases_and_pricing emptyLedgerFrame).2 0 = 22.5 := by
  refine ⟨?_, ?_, ?_⟩
  · obtain ⟨rm, hrmL, hrmd, hmax, heq⟩ :=
      (nearest_prior_policy [((0 : ℤ), (10 : ℚ))] emptyLedgerFrame [0] 0).1
        ⟨(0, 10), by simp, by norm_num⟩
    rw [heq, List.mem_singleton.mp hrmL]
  · exact (nearest_prior_policy [((5 : ℤ), (10 : ℚ))] emptyLedgerFrame [0] 0).2.1
      (by intro r hr; rw [List.mem_singleton.mp hr]; norm_num)
  · exact (nearest_prior_policy [] emptyLedgerFrame [0] 0).2.2 rfl

/-- C10: a purchase ledger that is empty, lacks a date column, or whose
price column is neither present nor derivable, yields the hardcoded
default price `22.50`, and every emitted daily fuel record then carries a
price per liter of exactly `22.50`. -/
theorem default_price_constant (gen hist det : List SensorRow) (s e : ℤ)
    (f : PurchaseFrame)
    (hf : f.rows.isEmpty = true ∨ f.hasDate = false ∨
      (f.hasPrice = false ∧ (f.hasLitres && f.hasCost) = false)) :
    (process_fuel_purchases_and_pricing f).2 = 22.5 ∧
    ∀ r ∈ calculate_enhanced_fuel_analysis gen hist f det s e,
      r.fuel_price_per_liter = 22.5 := by
  have hpp : process_fuel_purchases_and_pricing f = ([], 22.5) := by
    simp only [process_fuel_purchases_and_pricing]
    split_ifs with h1 h2 h3
    · rfl
    · rfl
    · rcases hf with h | h | ⟨ha, hb⟩
      · exact absurd h h1
      · simp [h] at h2
      · simp [ha, hb] at h3
    · rfl
  refine ⟨by rw [hpp], ?_⟩
  intro r hr
  simp only [calculate_enhanced_fuel_analysis, hpp, List.mem_filterMap] at hr
  obtain ⟨d2, hd2, hsome⟩ := hr
  split at hsome
  · rw [Option.some.injEq] at hsome
    subst hsome
    simp [build_daily_price_series, seriesGetD]
  · simp at hsome

/-- Witness for C10: the theorem applied to the empty ledger and the
concrete pipeline run, whose emitted record carries the price `22.50`. -/
theorem default_price_constant_witness :
    recSample ∈ calculate_enhanced_fuel_analysis [] histSample emptyLedgerFrame
      detSample 0 0 ∧
    recSample.fuel_price_per_liter = 22.5 ∧
    (process_fuel_purchases_and_pricing emptyLedgerFrame).2 = 22.5 := by
  have hlist : calculate_enhanced_fuel_analysis [] histSample emptyLedgerFrame
      detSample 0 0 = [recSample] := pipelineSample_eval
  have hmem : recSample ∈ calculate_enhanced_fuel_analysis [] histSample
      emptyLedgerFrame detSample 0 0 := by
    rw [hlist]; exact List.mem_singleton.mpr rfl
  obtain ⟨h1, h2⟩ := default_price_constant [] histSample detSample 0 0
    emptyLedgerFrame (Or.inl rfl)
  exact ⟨hmem, h2 recSample hmem, h1⟩
